import Mathlib

/-!
Shallow embedding of the Savoy monophonic VST synthesizer (src/src/lib.rs,
src/src/params.rs, src/src/envelope.rs).

Conventions of the embedding:
* f64 / f32 values are modelled as exact numbers: rationals (ℚ) wherever the
  source only does field arithmetic and comparisons (parameter store, clock,
  envelope multipliers), reals (ℝ) where transcendental functions appear
  (oscillator waveforms, pitch-to-frequency).  The final `as f32` cast of the
  output sample is not modelled; the values the theorems below evaluate
  (0, 1, 1/2, ...) are exactly representable in f32, so the cast is the
  identity on them.
* `AtomicFloat` cells are plain record fields: no concurrent writer is
  modelled, matching the single-threaded render path.
* The `Savoy` plugin struct becomes `SavoyState`; the per-sample body of
  `Savoy::process` is split into the state update (`stateStep`, computable)
  and the value written to the output buffer (`outputAt`, real-valued),
  composed by `stateBlock` / `processOutputs`.
-/

namespace Savoy

/-- The `Oscillator` enum of lib.rs. -/
inductive Oscillator
  | Saw
  | Sine
  | Square
  | Triangle
deriving DecidableEq

/-- The `SavoyParameters` struct (five `AtomicFloat` cells). -/
structure SavoyParameters where
  oscillator : ℚ
  attack : ℚ
  decay : ℚ
  sustain : ℚ
  release : ℚ
deriving DecidableEq

/-- `SavoyParameters::default()`. -/
def defaultParams : SavoyParameters :=
  { oscillator := 0, attack := 0, decay := 1, sustain := 1, release := 0 }

/-- The `Savoy` plugin struct: sample rate, accumulated time, elapsed time of
the current note, the currently sounding note (if any), its velocity, and the
parameter cells. -/
structure SavoyState where
  sample_rate : ℚ
  time : ℚ
  note_duration : ℚ
  note : Option ℕ
  velocity : ℕ
  params : SavoyParameters
deriving DecidableEq

/-- `Savoy::new`: sample_rate 44100, everything else zeroed, no note. -/
def newSavoy : SavoyState :=
  { sample_rate := 44100, time := 0, note_duration := 0, note := none,
    velocity := 0, params := defaultParams }

/-- The free function `fmod`: floating-point remainder via floor. -/
noncomputable def fmod (numerator denominator : ℝ) : ℝ :=
  numerator - ⌊numerator / denominator⌋ * denominator

/-- Interpretation of the `pitch as i8` cast in `midi_pitch_to_freq` for a
byte value: twos-complement reinterpretation of a u8 as an i8. -/
def toI8 (n : ℕ) : ℤ :=
  if n < 128 then (n : ℤ) else (n : ℤ) - 256

/-- `midi_pitch_to_freq`: `((pitch as i8 - 69) as f64 / 12).exp2() * 440.0`. -/
noncomputable def midi_pitch_to_freq (pitch : ℕ) : ℝ :=
  (2 : ℝ) ^ ((((toI8 pitch - 69 : ℤ)) : ℝ) / 12) * 440

/-- `midi_velocity_to_amplitude`: `velocity as f64 / 127.0`. -/
def midi_velocity_to_amplitude (velocity : ℕ) : ℚ :=
  (velocity : ℚ) / 127

/-- The constant `TAU = PI * 2.0`. -/
noncomputable def TAU : ℝ := Real.pi * 2

/-- Rust `f64::signum`: 1.0 for non-negative arguments (including +0.0),
-1.0 for negative ones.  (NaN has no counterpart in ℝ.) -/
noncomputable def rustSignum (x : ℝ) : ℝ :=
  if 0 ≤ x then 1 else -1

/-- `Savoy::saw_signal`. -/
noncomputable def saw_signal (time : ℝ) (pitch : ℕ) : ℝ :=
  let full_period_time := 1 / midi_pitch_to_freq pitch
  let local_time := fmod time full_period_time
  (local_time / full_period_time) * 2 - 1

/-- `Savoy::sine_signal`. -/
noncomputable def sine_signal (time : ℝ) (pitch : ℕ) : ℝ :=
  Real.sin (time * midi_pitch_to_freq pitch * TAU)

/-- `Savoy::square_signal`: `(2.0 * PI * freq * time).sin().signum()`. -/
noncomputable def square_signal (time : ℝ) (pitch : ℕ) : ℝ :=
  rustSignum (Real.sin (2 * Real.pi * midi_pitch_to_freq pitch * time))

/-- `Savoy::triangle_signal`. -/
noncomputable def triangle_signal (time : ℝ) (pitch : ℕ) : ℝ :=
  let full_period_time := 1 / midi_pitch_to_freq pitch
  let local_time := fmod time full_period_time
  let value := local_time / full_period_time
  if value < 1/4 then value * 4
  else if value < 3/4 then 2 - value * 4
  else value * 4 - 4

/-- `Savoy::signal`: dispatch on the oscillator shape. -/
noncomputable def signal (time : ℝ) (pitch : ℕ) : Oscillator → ℝ
  | Oscillator.Saw => saw_signal time pitch
  | Oscillator.Sine => sine_signal time pitch
  | Oscillator.Square => square_signal time pitch
  | Oscillator.Triangle => triangle_signal time pitch

/-- `Savoy::oscillator`: quartile selection of the waveform from the
normalized oscillator parameter; `None` outside the four quartiles. -/
def oscillator (osc_parameter : ℚ) : Option Oscillator :=
  if 0 ≤ osc_parameter ∧ osc_parameter < 1/4 then some Oscillator.Saw
  else if 1/4 ≤ osc_parameter ∧ osc_parameter < 1/2 then some Oscillator.Square
  else if 1/2 ≤ osc_parameter ∧ osc_parameter < 3/4 then some Oscillator.Triangle
  else if 3/4 ≤ osc_parameter ∧ osc_parameter < 1 then some Oscillator.Sine
  else none

/-- The `match osc { Some(osc) => osc, None => Oscillator::Sine }` fallback in
`Savoy::process` (lines 258-261). -/
def shapeOf (osc_parameter : ℚ) : Oscillator :=
  (oscillator osc_parameter).getD Oscillator.Sine

/-- `Savoy::note_on`: reset the note clock, store pitch and velocity. -/
def note_on (note : ℕ) (velocity : ℕ) (s : SavoyState) : SavoyState :=
  { s with note_duration := 0, note := some note, velocity := velocity }

/-- `Savoy::note_off`: clear the note only when the pitch matches. -/
def note_off (note : ℕ) (s : SavoyState) : SavoyState :=
  if s.note = some note then { s with note := none } else s

/-- `Savoy::time_per_sample`. -/
def time_per_sample (s : SavoyState) : ℚ :=
  1 / s.sample_rate

/-- The attack multiplier computed inside the note branch of
`Savoy::process` (lines 268-273): `if note_duration < attack
{ note_duration / attack } else { 1.0 }`. -/
def alphaAttack (note_duration attack : ℚ) : ℚ :=
  if note_duration < attack then note_duration / attack else 1

/-- `Savoy::envelope_multiplier` (defined at lines 180-182; never called from
the render path). -/
noncomputable def envelope_multiplier (start stop length : ℝ) : ℝ :=
  1 + (Real.log stop - Real.log start) / length

/-- The alpha computed by `Savoy::envelope` (lines 184-207; never called from
the render path). -/
def envelope_alpha (note_duration attack decay : ℚ) : ℚ :=
  let alpha := if note_duration < attack then note_duration / attack else 1
  if alpha ≤ note_duration then -(note_duration - decay) else alpha

/-- State evolution of one iteration of the sample loop in `Savoy::process`:
`time` and `note_duration` advance by `time_per_sample` only inside the
`if let Some(pitch)` branch; the no-note branch leaves the state untouched. -/
def stateStep (s : SavoyState) : SavoyState :=
  match s.note with
  | some _ =>
      { s with time := s.time + time_per_sample s,
               note_duration := s.note_duration + time_per_sample s }
  | none => s

/-- State after processing a block of `n` samples. -/
def stateBlock (s : SavoyState) : ℕ → SavoyState
  | 0 => s
  | n + 1 => stateBlock (stateStep s) n

/-- The value written to every output channel for the current sample
(`Savoy::process`, lines 263-288): with a note, `signal * alpha * amplitude`;
with no note, `1.0` when the release parameter is positive and `0.0`
otherwise. -/
noncomputable def outputAt (s : SavoyState) : ℝ :=
  match s.note with
  | some pitch =>
      signal s.time pitch (shapeOf s.params.oscillator) *
        (alphaAttack s.note_duration s.params.attack : ℝ) *
        (midi_velocity_to_amplitude s.velocity : ℝ)
  | none => if 0 < s.params.release then 1 else 0

/-- The sequence of output samples produced by a block of `n` samples. -/
noncomputable def processOutputs (s : SavoyState) : ℕ → List ℝ
  | 0 => []
  | n + 1 => outputAt s :: processOutputs (stateStep s) n

/-- `PluginParameters::get_parameter` (lib.rs lines 313-322 and the identical
params.rs lines 27-36). -/
def get_parameter (p : SavoyParameters) (index : ℤ) : ℚ :=
  if index = 0 then p.oscillator
  else if index = 1 then p.attack
  else if index = 2 then p.decay
  else if index = 3 then p.sustain
  else if index = 4 then p.release
  else 0

/-- `PluginParameters::set_parameter` (lib.rs lines 324-333 and the identical
params.rs lines 38-47). -/
def set_parameter (p : SavoyParameters) (index : ℤ) (value : ℚ) : SavoyParameters :=
  if index = 0 then { p with oscillator := value }
  else if index = 1 then { p with attack := value }
  else if index = 2 then { p with decay := value }
  else if index = 3 then { p with sustain := value }
  else if index = 4 then { p with release := value }
  else p

/-- Mathematical sign with the convention sign 0 = 0; this follows the spec
text for the square oscillator, for comparison with `rustSignum`. -/
noncomputable def specSign (x : ℝ) : ℝ :=
  if 0 < x then 1 else if x < 0 then -1 else 0

/-- The attack multiplier as the spec describes it: the attack duration floored to a
positive epsilon before being used as a divisor.  This follows the words of the spec, for comparison with the `alphaAttack` of the source. -/
def alphaAttackClamped (eps note_duration attack : ℚ) : ℚ :=
  let clamped := max attack eps
  if note_duration < clamped then note_duration / clamped else 1

/-- The proposition that the attack multiplier of the source agrees with the
epsilon-clamped one of the spec for some positive epsilon. -/
def clampedClaim : Prop :=
  ∃ eps : ℚ, 0 < eps ∧
    ∀ note_duration attack : ℚ, 0 ≤ note_duration →
      alphaAttack note_duration attack = alphaAttackClamped eps note_duration attack

/-- Concrete state for C1: no note sounding, release parameter 1/2. -/
def sIdleRelease : SavoyState :=
  { newSavoy with params := { defaultParams with release := 1/2 } }

/-- Concrete state for C2: note 69 sounding in its sustain region, sample
rate 4 Hz, sustain 1, release 1/2 (two samples worth of release time). -/
def sSounding : SavoyState :=
  { newSavoy with
      sample_rate := 4
      note := some 69
      note_duration := 1
      params := { defaultParams with release := 1/2 } }

/-- Concrete state for C8: note 60 sounding. -/
def sNote60 : SavoyState :=
  { newSavoy with note := some 60 }

/-- Concrete state for C9: note 69 sounding, default sample rate. -/
def sNote69 : SavoyState :=
  { newSavoy with note := some 69 }

lemma stateStep_note (s : SavoyState) : (stateStep s).note = s.note := by
  cases hn : s.note <;> simp [stateStep, hn]

lemma stateStep_sample_rate (s : SavoyState) :
    (stateStep s).sample_rate = s.sample_rate := by
  cases hn : s.note <;> simp [stateStep, hn]

lemma stateStep_of_none (s : SavoyState) (h : s.note = none) : stateStep s = s := by
  unfold stateStep
  rw [h]

lemma stateStep_time_of_some (s : SavoyState) (q : ℕ) (h : s.note = some q) :
    (stateStep s).time = s.time + time_per_sample s := by
  unfold stateStep
  rw [h]

lemma stateStep_time_per_sample (s : SavoyState) :
    time_per_sample (stateStep s) = time_per_sample s := by
  unfold time_per_sample
  rw [stateStep_sample_rate]

lemma stateBlock_of_none :
    ∀ (n : ℕ) (s : SavoyState), s.note = none → stateBlock s n = s := by
  intro n
  induction n with
  | zero => intro s _; rfl
  | succ n ih =>
      intro s h
      show stateBlock (stateStep s) n = s
      rw [stateStep_of_none s h]
      exact ih s h

lemma stateBlock_time_of_some :
    ∀ (n : ℕ) (s : SavoyState) (q : ℕ), s.note = some q →
      (stateBlock s n).time = s.time + n * time_per_sample s := by
  intro n
  induction n with
  | zero => intro s q _; simp [stateBlock]
  | succ n ih =>
      intro s q h
      have h2 : (stateStep s).note = some q := by rw [stateStep_note]; exact h
      show (stateBlock (stateStep s) n).time = s.time + (n + 1 : ℕ) * time_per_sample s
      rw [ih (stateStep s) q h2, stateStep_time_per_sample,
        stateStep_time_of_some s q h]
      push_cast
      ring

lemma stateBlock_time_mono :
    ∀ (n : ℕ) (s : SavoyState), 0 < s.sample_rate →
      s.time ≤ (stateBlock s n).time := by
  intro n
  induction n with
  | zero => intro s _; exact le_refl _
  | succ n ih =>
      intro s hsr
      have hps : 0 ≤ time_per_sample s := by
        unfold time_per_sample
        positivity
      have hstep : s.time ≤ (stateStep s).time := by
        cases hn : s.note with
        | none =>
            rw [stateStep_of_none s hn]
        | some q =>
            rw [stateStep_time_of_some s q hn]
            exact le_add_of_nonneg_right hps
      have hsr2 : 0 < (stateStep s).sample_rate := by
        rw [stateStep_sample_rate]; exact hsr
      exact le_trans hstep (ih (stateStep s) hsr2)

/-- C6: while a note is sounding and the elapsed time is below the attack
duration, the amplitude multiplier is elapsed/attack; once elapsed reaches
the attack duration it is clamped to 1; attack = 0 yields an immediate
multiplier of 1. -/
theorem C6_attack_multiplier (note_duration attack : ℚ) (hd : 0 ≤ note_duration) :
    (note_duration < attack →
        alphaAttack note_duration attack = note_duration / attack) ∧
    (attack ≤ note_duration → alphaAttack note_duration attack = 1) ∧
    (attack = 0 → alphaAttack note_duration attack = 1) := by
  unfold alphaAttack
  refine ⟨fun h => if_pos h, fun h => if_neg (not_lt.2 h), fun h => ?_⟩
  rw [h]
  exact if_neg (not_lt.2 hd)

/-- Witness for C6 at elapsed 1/2, attack 2 (ramp), elapsed 3, attack 2
(clamp), and attack 0 (immediate 1). -/
theorem C6_attack_multiplier_witness :
    alphaAttack (1/2) 2 = (1/2) / 2 ∧ alphaAttack 3 2 = 1 ∧ alphaAttack 5 0 = 1 :=
  ⟨(C6_attack_multiplier (1/2) 2 (by norm_num)).1 (by norm_num),
   (C6_attack_multiplier 3 2 (by norm_num)).2.1 (by norm_num),
   (C6_attack_multiplier 5 0 (by norm_num)).2.2 rfl⟩

/-- C7 counterexample: there is no positive epsilon for which the attack
multiplier of the source equals the epsilon-clamped one of the spec: at
note_duration = 0, attack = 0 the source yields 1 while every clamped
version yields 0. -/
theorem C7_clamp_counterexample : clampedClaim = False := by
  apply eq_false
  rintro ⟨eps, heps, h⟩
  have h00 := h 0 0 le_rfl
  simp [alphaAttack, alphaAttackClamped, max_eq_right heps.le, heps] at h00

/-- C7 amended: no clamping is applied; the division note_duration/attack is
only reached under the guard note_duration < attack, which together with
0 ≤ note_duration forces the divisor to be positive, and a zero (or
exceeded) attack takes the other branch with multiplier 1. -/
theorem C7_guarded_division (note_duration attack : ℚ) (hd : 0 ≤ note_duration) :
    (note_duration < attack → 0 < attack ∧
        alphaAttack note_duration attack = note_duration / attack) ∧
    (¬ note_duration < attack → alphaAttack note_duration attack = 1) := by
  unfold alphaAttack
  exact ⟨fun h => ⟨lt_of_le_of_lt hd h, if_pos h⟩, fun h => if_neg h⟩

/-- Witness for C7 at elapsed 1, attack 3: the divisor is positive and the
multiplier is 1/3. -/
theorem C7_guarded_division_witness :
    (0 : ℚ) < 3 ∧ alphaAttack 1 3 = 1 / 3 :=
  (C7_guarded_division 1 3 (by norm_num)).1 (by norm_num)

/-- C8: a note_off whose pitch is not the currently sounding note (also when
no note sounds) leaves the whole synth state, hence in particular the note
tracker, unchanged. -/
theorem C8_stale_note_off (s : SavoyState) (p : ℕ) (h : s.note ≠ some p) :
    note_off p s = s := by
  unfold note_off
  rw [if_neg h]

/-- Witness for C8: note_off 69 while note 60 sounds changes nothing. -/
theorem C8_stale_note_off_witness :
    sNote60.note ≠ some 69 ∧ note_off 69 sNote60 = sNote60 :=
  ⟨by decide, C8_stale_note_off sNote60 69 (by decide)⟩

/-- C10: setting parameter i to v and reading parameter i back returns v, and
every other in-range parameter index reads the same value as before. -/
theorem C10_param_roundtrip (ps : SavoyParameters) (i : ℤ) (v : ℚ)
    (hi : 0 ≤ i ∧ i ≤ 4) :
    get_parameter (set_parameter ps i v) i = v ∧
    ∀ j : ℤ, 0 ≤ j → j ≤ 4 → j ≠ i →
      get_parameter (set_parameter ps i v) j = get_parameter ps j := by
  obtain ⟨h0, h4⟩ := hi
  interval_cases i <;>
    refine ⟨by norm_num [get_parameter, set_parameter], ?_⟩ <;>
    (intro j hj0 hj4 hne
     interval_cases j <;> simp_all [get_parameter, set_parameter])

/-- C3: for every MIDI pitch up to 127, the pitch-to-frequency conversion is
440 times 2 to the (pitch-69)/12, and pitch 69 maps to exactly 440. -/
theorem C3_pitch_freq (p : ℕ) (hp : p ≤ 127) :
    midi_pitch_to_freq p = 440 * (2 : ℝ) ^ (((p : ℝ) - 69) / 12) ∧
    midi_pitch_to_freq 69 = 440 := by
  constructor
  · unfold midi_pitch_to_freq toI8
    rw [if_pos (by omega : p < 128)]
    push_cast
    ring
  · unfold midi_pitch_to_freq
    have h69 : ((toI8 69 - 69 : ℤ) : ℝ) / 12 = 0 := by norm_num [toI8]
    rw [h69, Real.rpow_zero, one_mul]

/-- Witness for C3 at pitch 69. -/
theorem C3_pitch_freq_witness :
    midi_pitch_to_freq 69 = 440 * (2 : ℝ) ^ ((((69 : ℕ) : ℝ) - 69) / 12) ∧
    midi_pitch_to_freq 69 = 440 :=
  C3_pitch_freq 69 (by norm_num)

/-- C4: the oscillator control selects Saw on [0,1/4), Square on [1/4,1/2),
Triangle on [1/2,3/4), Sine on [3/4,1); at exactly 1 or outside [0,1] the
selection is None and the rendered shape falls back to Sine. -/
theorem C4_oscillator_quartiles (v : ℚ) :
    (0 ≤ v ∧ v < 1/4 →
        oscillator v = some Oscillator.Saw ∧ shapeOf v = Oscillator.Saw) ∧
    (1/4 ≤ v ∧ v < 1/2 →
        oscillator v = some Oscillator.Square ∧ shapeOf v = Oscillator.Square) ∧
    (1/2 ≤ v ∧ v < 3/4 →
        oscillator v = some Oscillator.Triangle ∧ shapeOf v = Oscillator.Triangle) ∧
    (3/4 ≤ v ∧ v < 1 →
        oscillator v = some Oscillator.Sine ∧ shapeOf v = Oscillator.Sine) ∧
    (v = 1 ∨ v < 0 ∨ 1 < v →
        oscillator v = none ∧ shapeOf v = Oscillator.Sine) := by
  unfold shapeOf oscillator
  refine ⟨fun h => ?_, fun h => ?_, fun h => ?_, fun h => ?_, fun h => ?_⟩
  · rw [if_pos h]
    exact ⟨rfl, rfl⟩
  · obtain ⟨ha, hb⟩ := h
    have hn1 : ¬(0 ≤ v ∧ v < 1/4) := by rintro ⟨h1, h2⟩; linarith
    rw [if_neg hn1, if_pos ⟨ha, hb⟩]
    exact ⟨rfl, rfl⟩
  · obtain ⟨ha, hb⟩ := h
    have hn1 : ¬(0 ≤ v ∧ v < 1/4) := by rintro ⟨h1, h2⟩; linarith
    have hn2 : ¬(1/4 ≤ v ∧ v < 1/2) := by rintro ⟨h1, h2⟩; linarith
    rw [if_neg hn1, if_neg hn2, if_pos ⟨ha, hb⟩]
    exact ⟨rfl, rfl⟩
  · obtain ⟨ha, hb⟩ := h
    have hn1 : ¬(0 ≤ v ∧ v < 1/4) := by rintro ⟨h1, h2⟩; linarith
    have hn2 : ¬(1/4 ≤ v ∧ v < 1/2) := by rintro ⟨h1, h2⟩; linarith
    have hn3 : ¬(1/2 ≤ v ∧ v < 3/4) := by rintro ⟨h1, h2⟩; linarith
    rw [if_neg hn1, if_neg hn2, if_neg hn3, if_pos ⟨ha, hb⟩]
    exact ⟨rfl, rfl⟩
  · have hout : ¬(0 ≤ v ∧ v < 1) := by
      rcases h with h | h | h
      · rintro ⟨h1, h2⟩; rw [h] at h2; exact lt_irrefl 1 h2
      · rintro ⟨h1, h2⟩; linarith
      · rintro ⟨h1, h2⟩; linarith
    have hn1 : ¬(0 ≤ v ∧ v < 1/4) := by rintro ⟨h1, h2⟩; exact hout ⟨h1, by linarith⟩
    have hn2 : ¬(1/4 ≤ v ∧ v < 1/2) := by
      rintro ⟨h1, h2⟩; exact hout ⟨by linarith, by linarith⟩
    have hn3 : ¬(1/2 ≤ v ∧ v < 3/4) := by
      rintro ⟨h1, h2⟩; exact hout ⟨by linarith, by linarith⟩
    have hn4 : ¬(3/4 ≤ v ∧ v < 1) := by
      rintro ⟨h1, h2⟩; exact hout ⟨by linarith, h2⟩
    rw [if_neg hn1, if_neg hn2, if_neg hn3, if_neg hn4]
    exact ⟨rfl, rfl⟩

/-- Witness for C4: control 9/10 selects Sine; out-of-range control 11/10
selects nothing and falls back to Sine. -/
theorem C4_oscillator_quartiles_witness :
    (oscillator (9/10) = some Oscillator.Sine ∧ shapeOf (9/10) = Oscillator.Sine) ∧
    (oscillator (11/10) = none ∧ shapeOf (11/10) = Oscillator.Sine) :=
  ⟨(C4_oscillator_quartiles (9/10)).2.2.2.1 (by norm_num),
   (C4_oscillator_quartiles (11/10)).2.2.2.2 (Or.inr (Or.inr (by norm_num)))⟩

/-- C5 counterexample: at time 0 the argument of sin is 0, the sign convention of the spec demands output 0, but the square oscillator (Rust signum, which
maps +0.0 to 1.0) outputs 1. -/
theorem C5_square_counterexample :
    Real.sin (2 * Real.pi * midi_pitch_to_freq 69 * 0) = 0 ∧
    specSign (Real.sin (2 * Real.pi * midi_pitch_to_freq 69 * 0)) = 0 ∧
    square_signal 0 69 = 1 := by
  have hs : Real.sin (2 * Real.pi * midi_pitch_to_freq 69 * 0) = 0 := by
    rw [mul_zero, Real.sin_zero]
  refine ⟨hs, ?_, ?_⟩
  · rw [hs]
    unfold specSign
    norm_num
  · unfold square_signal rustSignum
    rw [mul_zero, Real.sin_zero]
    norm_num

/-- C5 amended: the square oscillator is Rust signum of sin(2 pi f t): 1 when
the sine is non-negative (in particular when it is 0), -1 when it is
negative; its output always lies in the two-element set -1, 1 (hence in the
claimed -1, 0, 1). -/
theorem C5_square_sign (t : ℝ) (p : ℕ) :
    (0 ≤ Real.sin (2 * Real.pi * midi_pitch_to_freq p * t) →
        square_signal t p = 1) ∧
    (Real.sin (2 * Real.pi * midi_pitch_to_freq p * t) < 0 →
        square_signal t p = -1) ∧
    (square_signal t p = 1 ∨ square_signal t p = -1) := by
  unfold square_signal rustSignum
  by_cases h : 0 ≤ Real.sin (2 * Real.pi * midi_pitch_to_freq p * t)
  · rw [if_pos h]
    exact ⟨fun _ => rfl, fun hc => absurd h (not_le.2 hc), Or.inl rfl⟩
  · rw [if_neg h]
    exact ⟨fun hc => absurd hc h, fun _ => rfl, Or.inr rfl⟩

/-- Witness for C5 amended at time 0, pitch 60: sin is 0 there and the output
is 1. -/
theorem C5_square_sign_witness : square_signal 0 60 = 1 :=
  (C5_square_sign 0 60).1 (by simp)

/-- C9 counterexample: processing a one-sample block with no note sounding
leaves the accumulated time unchanged instead of advancing it by
1/sample_rate as claimed. -/
theorem C9_time_counterexample :
    newSavoy.note = none ∧
    (stateBlock newSavoy 1).time = newSavoy.time ∧
    newSavoy.time + 1 * time_per_sample newSavoy ≠ newSavoy.time := by
  refine ⟨rfl, rfl, ?_⟩
  norm_num [newSavoy, time_per_sample]

/-- C9 amended: accumulated time never decreases across processing and note
events; a block of n samples advances it by exactly n/sample_rate when a
note sounds throughout (per sample, inside the note branch), and by 0 when
no note sounds. -/
theorem C9_time_accumulation (s : SavoyState) (n : ℕ) (hsr : 0 < s.sample_rate) :
    s.time ≤ (stateBlock s n).time ∧
    (∀ q w, (note_on q w s).time = s.time) ∧
    (∀ q, (note_off q s).time = s.time) ∧
    (s.note = none → (stateBlock s n).time = s.time) ∧
    (∀ q, s.note = some q →
      (stateBlock s n).time = s.time + n * time_per_sample s) := by
  refine ⟨stateBlock_time_mono n s hsr, fun q w => rfl, fun q => ?_,
    fun h => by rw [stateBlock_of_none n s h], fun q h => stateBlock_time_of_some n s q h⟩
  unfold note_off
  split_ifs <;> rfl

/-- Witness for C9 amended: with note 69 sounding at sample rate 44100, a
two-sample block advances time by 2/44100. -/
theorem C9_time_accumulation_witness :
    (stateBlock sNote69 2).time =
      sNote69.time + ((2 : ℕ) : ℚ) * time_per_sample sNote69 :=
  (C9_time_accumulation sNote69 2 (by norm_num [sNote69, newSavoy])).2.2.2.2 69 rfl

/-- C1: with no note sounding and the release parameter set to 1/2, the
sample written to the output buffer is 1, not the 0 the claim (and the
intent of the spec) requires: the no-note branch is a binary gate on the release
parameter. -/
theorem C1_idle_output_bug :
    sIdleRelease.note = none ∧ 0 < sIdleRelease.params.release ∧
    outputAt sIdleRelease = 1 := by
  refine ⟨rfl, by norm_num [sIdleRelease, defaultParams, newSavoy], ?_⟩
  unfold outputAt
  norm_num [sIdleRelease, defaultParams, newSavoy]

/-- C2: dropping note 69 (during what the spec calls Sustain) and processing
three further samples at sample rate 4 with release 1/2 yields outputs
[1, 1, 1]: the output never ramps down and is still 1 after the release
duration (2 samples) has passed, instead of reaching 0 and staying there. -/
theorem C2_no_release_ramp_bug :
    (note_off 69 sSounding).note = none ∧
    processOutputs (note_off 69 sSounding) 3 = [1, 1, 1] := by
  have hoff : note_off 69 sSounding = { sSounding with note := none } := by
    unfold note_off
    rw [if_pos (show sSounding.note = some 69 from rfl)]
  constructor
  · rw [hoff]
  · rw [hoff]
    have hstep : stateStep { sSounding with note := none } =
        { sSounding with note := none } :=
      stateStep_of_none _ rfl
    have hout : outputAt { sSounding with note := none } = 1 := by
      unfold outputAt
      norm_num [sSounding, defaultParams, newSavoy]
    simp [processOutputs, hstep, hout]

/-- Witness for C10: set index 3 (sustain) to 7/8 on the default parameters,
read index 3 back and check index 2 (decay) is untouched. -/
theorem C10_param_roundtrip_witness :
    get_parameter (set_parameter defaultParams 3 (7/8)) 3 = 7/8 ∧
    get_parameter (set_parameter defaultParams 3 (7/8)) 2 =
      get_parameter defaultParams 2 :=
  ⟨(C10_param_roundtrip defaultParams 3 (7/8) (by norm_num)).1,
   (C10_param_roundtrip defaultParams 3 (7/8) (by norm_num)).2 2
     (by norm_num) (by norm_num) (by norm_num)⟩

end Savoy
